import Mathlib

/-!
Verification of the multi-contact walking pattern generator
(`examples/multi_contact_walking.py`): a shallow embedding of the COM tube
builder, the walking finite-state machine, the preview buffer and the
predictive-control glue, together with theorems about their behaviour.

Numeric state is modelled with rationals.  Functions that live outside the
example file and outside `pymanoid/misc.py` (the pendular acceleration cone,
polygon intersection, the QP solver, the square root used by `normalize`,
and the stance's distance-to-equilibrium-boundary) are kept abstract as
function parameters, since the claims under scrutiny do not depend on their
internals.
-/

set_option maxRecDepth 10000

set_option allowUnsafeReducibility true in
attribute [semireducible] Rat.add Rat.mul Rat.inv Rat.sub

namespace MCW

/-- Three-dimensional vector over ℚ, standing in for a numpy array of
length 3. -/
structure Vec3 where
  x : ℚ
  y : ℚ
  z : ℚ
deriving DecidableEq, Inhabited

instance : Add Vec3 := ⟨fun a b => ⟨a.x + b.x, a.y + b.y, a.z + b.z⟩⟩

instance : Sub Vec3 := ⟨fun a b => ⟨a.x - b.x, a.y - b.y, a.z - b.z⟩⟩

instance : Neg Vec3 := ⟨fun a => ⟨-a.x, -a.y, -a.z⟩⟩

instance : SMul ℚ Vec3 := ⟨fun q a => ⟨q * a.x, q * a.y, q * a.z⟩⟩

instance : HDiv Vec3 ℚ Vec3 := ⟨fun a q => ⟨a.x / q, a.y / q, a.z / q⟩⟩

/-- Dot product of two 3D vectors (`numpy.dot` on length-3 arrays). -/
def Vec3.dot (a b : Vec3) : ℚ := a.x * b.x + a.y * b.y + a.z * b.z

/-- Cross product of two 3D vectors (`numpy.cross`). -/
def Vec3.cross (a b : Vec3) : Vec3 :=
  ⟨a.y * b.z - a.z * b.y, a.z * b.x - a.x * b.z, a.x * b.y - a.y * b.x⟩

/-- Modelled from the spec: `pymanoid.sim.gravity`, the world gravity vector
(the spec's positive gravity constant is `g = 9.81`, gravity points down).
`pymanoid/sim.py` is not part of the sources under review. -/
def gravity : Vec3 := ⟨0, 0, -(981/100)⟩

/-- Euclidean norm from `pymanoid/misc.py` (`norm(v) = sqrt(dot(v, v))`).
The square root comes from numpy and is passed in as a parameter. -/
def norm (sqrt : ℚ → ℚ) (v : Vec3) : ℚ := sqrt (v.dot v)

/-- Vector normalization from `pymanoid/misc.py` (`normalize(v) = v / norm(v)`). -/
def normalize (sqrt : ℚ → ℚ) (v : Vec3) : Vec3 := v / norm sqrt v

/-- Python's `str.startswith`, on explicit character lists: `charsLead p s`
is true when `p` is an initial segment of `s`. -/
def charsLead : List Char → List Char → Bool
  | [], _ => true
  | _ :: _, [] => false
  | p :: ps, c :: cs => p == c && charsLead ps cs

/-- Python's `s.startswith(p)`. -/
def strStartsWith (s p : String) : Bool := charsLead p.data s.data

/-- Python's `s.endswith(p)`. -/
def strEndsWith (s p : String) : Bool := charsLead p.data.reverse s.data.reverse

/-- Label prefix "SS" used by the walking FSM. -/
def lblSS : String := "SS"

/-- Label prefix "DS" used by the walking FSM. -/
def lblDS : String := "DS"

/-- Label suffix "L" used by the walking FSM. -/
def lblL : String := "L"

/-- Stance label "DS-R". -/
def lblDSR : String := "DS-R"

/-- Stance label "DS-L". -/
def lblDSL : String := "DS-L"

/-- A contact patch, keeping only the data the walking example reads: the
tangential direction `t` of the contact frame and the 7D pose vector. -/
structure Contact where
  t : Vec3
  pose : List ℚ
deriving DecidableEq, Inhabited

/-- A stance of the walking pattern: phase label, duration, CoM reference
point (`stance.com.p`), and the two optional foot contacts.  Mirrors the
`Stance` objects built by `generate_staircase`. -/
structure Stance where
  label : String
  duration : ℚ
  com_p : Vec3
  left_foot : Option Contact
  right_foot : Option Contact
deriving DecidableEq, Inhabited

/-- Default control pair of `PreviewBuffer`: zero acceleration held for
0.1 s (`(zeros(u_dim), 0.1)` in `__init__`). -/
def default_control (u_dim : ℕ) : List ℚ × ℚ := (List.replicate u_dim 0, 1/10)

/-- State of `PreviewBuffer`: the flat stacked control vector `_U`, the
per-step durations `_dT`, the read cursor, and the bookkeeping fields set
by `update_preview` and by `COMTubePredictiveControl`. -/
structure PreviewBuffer where
  U_stored : Option (List ℚ)
  dT_stored : Option (List ℚ)
  cur_control : Option (List ℚ)
  cur_index : ℕ
  nb_steps : ℕ
  rem_time : ℚ
  switch_step : Option ℤ
  u_dim : ℕ
deriving DecidableEq

/-- `PreviewBuffer.__init__(u_dim)`. -/
def PreviewBuffer.mk0 (u_dim : ℕ) : PreviewBuffer :=
  { U_stored := none, dT_stored := none, cur_control := none, cur_index := 0,
    nb_steps := 0, rem_time := 0, switch_step := none, u_dim := u_dim }

/-- `PreviewBuffer.is_empty`. -/
def PreviewBuffer.is_empty (b : PreviewBuffer) : Bool := b.U_stored.isNone

/-- `PreviewBuffer.update_preview(U, dT, switch_step)`: replace the stored
sequence and reset the cursor. -/
def PreviewBuffer.update_preview (b : PreviewBuffer) (U dT : List ℚ)
    (switch_step : Option ℤ) : PreviewBuffer :=
  { b with U_stored := some U, dT_stored := some dT, cur_index := 0,
           nb_steps := dT.length, rem_time := 0, switch_step := switch_step }

/-- `PreviewBuffer.reset()`: clear to the empty state. -/
def PreviewBuffer.reset (b : PreviewBuffer) : PreviewBuffer :=
  { b with U_stored := none, dT_stored := none, cur_control := none,
           cur_index := 0, rem_time := 0 }

/-- `PreviewBuffer.get_next_control()`: pop the `u_dim`-wide slice of `_U`
at the cursor together with its duration, advancing the cursor; return the
default pair (without advancing) when empty or exhausted.  Returns the pair
and the successor state. -/
def PreviewBuffer.get_next_control (b : PreviewBuffer) :
    (List ℚ × ℚ) × PreviewBuffer :=
  match b.U_stored with
  | none => (default_control b.u_dim, b)
  | some U =>
    let j := b.u_dim * b.cur_index
    let u := (U.drop j).take b.u_dim
    if u.length = 0 then (default_control b.u_dim, b)
    else
      let dT := (b.dT_stored.getD []).getD b.cur_index 0
      ((u, dT), { b with cur_index := b.cur_index + 1 })

/-- State after `n` successive calls to `get_next_control`. -/
def PreviewBuffer.run_nexts (b : PreviewBuffer) : ℕ → PreviewBuffer
  | 0 => b
  | n + 1 => ((b.run_nexts n).get_next_control).2

/-- Externally observable side effects of `MultiContactWalkingFSM.on_tick`:
swing-foot pose updates and resets (GUI/IK collaborators) and the
diagnostic printed when the double-support feasibility guard holds the
transition. -/
inductive FSMEvent where
  | update_swing_foot_pose (progress : ℚ)
  | reset_swing_foot (start_pose end_pose : List ℚ)
  | hold_diagnostic
  | update_robot_ik
deriving DecidableEq

/-- State of `MultiContactWalkingFSM`.  `robot_com` captures the value of
`self.robot.com` read by the feasibility guard; the IK and swing-foot
collaborators are reflected as events instead of state. -/
structure FSMState where
  cur_stance : Stance
  cur_stance_id : ℕ
  cycle : Bool
  is_over : Bool
  nb_stances : ℕ
  rem_time : ℚ
  stances : List Stance
  robot_com : Vec3
deriving DecidableEq

/-- `MultiContactWalkingFSM.__init__(stances, robot, swing_height, cycle)`. -/
def FSMState.mk0 (stances : List Stance) (robot_com : Vec3) (cycle : Bool) :
    FSMState :=
  { cur_stance := stances.getD 0 default, cur_stance_id := 0, cycle := cycle,
    is_over := false, nb_stances := stances.length,
    rem_time := (stances.getD 0 default).duration, stances := stances,
    robot_com := robot_com }

/-- `MultiContactWalkingFSM.next_stance`: the following stance; wraps to 0
when cyclic, stays at the current index otherwise. -/
def FSMState.next_stance (s : FSMState) : Stance :=
  let next_stance_id := s.cur_stance_id + 1
  let next_stance_id :=
    if next_stance_id ≥ s.nb_stances then
      (if s.cycle then 0 else s.cur_stance_id)
    else next_stance_id
  s.stances.getD next_stance_id default

/-- `MultiContactWalkingFSM.next_next_stance`. -/
def FSMState.next_next_stance (s : FSMState) : Stance :=
  let next_next_stance_id := s.cur_stance_id + 2
  let next_next_stance_id :=
    if next_next_stance_id ≥ s.nb_stances then
      (if s.cycle then next_next_stance_id % s.nb_stances
       else s.nb_stances - 1)
    else next_next_stance_id
  s.stances.getD next_next_stance_id default

/-- The stance foot read by `get_preview_targets`: the left foot when the
phase label ends with "L", the right foot otherwise. -/
def FSMState.stance_foot (s : FSMState) : Contact :=
  (if strEndsWith s.cur_stance.label lblL then s.cur_stance.left_foot
   else s.cur_stance.right_foot).getD default

/-- `MultiContactWalkingFSM.get_preview_targets()`: returns the tuple
`(rem_time, horizon, target_com, target_comd)` according to the three-way
policy of the walking FSM. -/
def FSMState.get_preview_targets (s : FSMState) : ℚ × ℚ × Vec3 × Vec3 :=
  if strStartsWith s.cur_stance.label lblSS ∧
      s.rem_time < (1/2) * s.cur_stance.duration then
    let horizon := s.rem_time + s.next_stance.duration +
      (1/2) * s.next_next_stance.duration
    let target_com := s.next_stance.com_p
    let target_comd := (target_com - s.cur_stance.com_p) / horizon
    (s.rem_time, horizon, target_com, target_comd)
  else if strStartsWith s.cur_stance.label lblDS then
    let horizon := s.rem_time + (1/2) * s.next_stance.duration
    (s.rem_time, horizon, s.cur_stance.com_p, (2/5 : ℚ) • s.stance_foot.t)
  else
    (s.rem_time, s.rem_time, s.cur_stance.com_p, (2/5 : ℚ) • s.stance_foot.t)

/-- `MultiContactWalkingFSM.on_tick(sim)` for one tick of duration `dt`.
`dist_to_sep_edge` abstracts `Stance.dist_to_sep_edge` (signed distance of
a point inside the stance's static-equilibrium polygon), which lives in
`pymanoid/stance.py`, outside the sources under review.  Returns the
successor state and the emitted events. -/
def FSMState.on_tick (dist_to_sep_edge : Stance → Vec3 → ℚ) (s : FSMState)
    (dt : ℚ) : FSMState × List FSMEvent :=
  if s.is_over then (s, [])
  else if s.rem_time > 0 then
    let events :=
      if strStartsWith s.cur_stance.label lblSS then
        [FSMEvent.update_swing_foot_pose (1 - s.rem_time / s.cur_stance.duration)]
      else []
    ({ s with rem_time := s.rem_time - dt }, events)
  else if strStartsWith s.cur_stance.label lblDS ∧
      ¬(dist_to_sep_edge s.next_stance s.robot_com > -(15/100)) then
    (s, [FSMEvent.hold_diagnostic])
  else if s.cur_stance_id = s.nb_stances - 1 ∧ s.cycle = false then
    ({ s with is_over := true }, [])
  else
    let swing_events :=
      if s.cur_stance.label = lblDSR ∧ s.next_next_stance.label = lblDSL then
        [FSMEvent.reset_swing_foot (s.cur_stance.left_foot.getD default).pose
          (s.next_next_stance.left_foot.getD default).pose]
      else if s.cur_stance.label = lblDSL ∧ s.next_next_stance.label = lblDSR then
        [FSMEvent.reset_swing_foot (s.cur_stance.right_foot.getD default).pose
          (s.next_next_stance.right_foot.getD default).pose]
      else []
    let new_id := (s.cur_stance_id + 1) % s.nb_stances
    let new_stance := s.stances.getD new_id default
    ({ s with cur_stance_id := new_id, cur_stance := new_stance,
              rem_time := new_stance.duration },
     swing_events ++ [FSMEvent.update_robot_ik])

/-- Iterated `on_tick` over a list of tick durations. -/
def FSMState.run_ticks (dist_to_sep_edge : Stance → Vec3 → ℚ) (s : FSMState) :
    List ℚ → FSMState
  | [] => s
  | dt :: rest => ((s.on_tick dist_to_sep_edge dt).1).run_ticks dist_to_sep_edge rest

/-- The `COMTube` value object: constructor arguments plus the vertex data
filled in by `compute_primal_vrep`. -/
structure COMTube where
  start_com : Vec3
  target_com : Vec3
  start_stance : Stance
  next_stance : Stance
  radius : ℚ
  margin : ℚ
  full_vrep : List Vec3
  primal_vrep : List (List Vec3)
deriving DecidableEq

/-- `COMTube.__init__` (the constructor default is `margin=0.01`). -/
def COMTube.mk0 (start_com target_com : Vec3) (start_stance next_stance : Stance)
    (radius margin : ℚ) : COMTube :=
  { start_com := start_com, target_com := target_com,
    start_stance := start_stance, next_stance := next_stance,
    radius := radius, margin := margin, full_vrep := [], primal_vrep := [] }

/-- `COMTube.compute_primal_vrep()`: builds the 8-vertex swept parallelepiped
`full_vrep` and splits it into primal sub-phases.  `sqrt` abstracts
`numpy.sqrt` as used by `pymanoid.misc.normalize`. -/
def COMTube.compute_primal_vrep (sqrt : ℚ → ℚ) (t : COMTube) : COMTube :=
  let delta := t.target_com - t.start_com
  let n := normalize sqrt delta
  let t0 : Vec3 := ⟨0, 0, 1⟩
  let t1 := t0 - (t0.dot n) • n
  let tv := normalize sqrt t1
  let b := Vec3.cross n tv
  let cross_section :=
    [((t.radius, t.radius) : ℚ × ℚ), (t.radius, -t.radius),
     (-t.radius, t.radius), (-t.radius, -t.radius)].map
      (fun p => p.1 • tv + p.2 • b)
  let tube_start := t.start_com - t.margin • n
  let tube_end := t.target_com + t.margin • n
  let vertices :=
    cross_section.map (fun sv => tube_start + sv) ++
    cross_section.map (fun sv => tube_end + sv)
  let d := t.start_stance.com_p - t.target_com
  let primal :=
    if strStartsWith t.start_stance.label lblSS then
      if |d.x| < 1/1000 ∧ |d.y| < 1/1000 ∧ |d.z| < 1/1000 then
        [vertices]
      else
        [[t.start_com], vertices]
    else
      [vertices, [t.target_com]]
  { t with full_vrep := vertices, primal_vrep := primal }

/-- The helper `expand_reduced_pendular_cone` nested in
`COMTube.compute_dual_vrep`: prepends the gravity vector to the 2D hull
lifted to the plane `zdd = g` (or `zdd = zdd_max` when given). -/
def expand_reduced_pendular_cone (reduced_hull : List (ℚ × ℚ))
    (zdd_max : Option ℚ) : List Vec3 :=
  let g := -gravity.z
  let zdd := match zdd_max with
    | none => g
    | some m => m
  let vertices_at_zdd := reduced_hull.map
    (fun p => (⟨p.1 * (g + zdd), p.2 * (g + zdd), zdd⟩ : Vec3))
  [gravity] ++ vertices_at_zdd

/-- `COMTube.compute_dual_vrep()`: returns the value assigned to
`self.dual_vrep`.  `compute_pendular_accel_cone` (full 3D) and
`compute_pendular_accel_cone_reduced` (keyword `reduced=True`) abstract
`Stance.compute_pendular_accel_cone` from `pymanoid/stance.py`;
`intersect_polygons` abstracts `pymanoid.pypoman.intersect_polygons`. -/
def COMTube.compute_dual_vrep
    (compute_pendular_accel_cone : Stance → List Vec3 → List Vec3)
    (compute_pendular_accel_cone_reduced : Stance → List Vec3 → List (ℚ × ℚ))
    (intersect_polygons : List (ℚ × ℚ) → List (ℚ × ℚ) → List (ℚ × ℚ))
    (t : COMTube) : List (List Vec3) :=
  if t.primal_vrep.length = 1 then
    [compute_pendular_accel_cone t.start_stance (t.primal_vrep.getD 0 [])]
  else
    let ds_then_ss := (t.primal_vrep.getD 0 []).length > 1
    let ds_vertices_2d :=
      if ds_then_ss then
        compute_pendular_accel_cone_reduced t.start_stance t.full_vrep
      else
        compute_pendular_accel_cone_reduced t.next_stance t.full_vrep
    let ss_vertices_2d :=
      if ds_then_ss then
        compute_pendular_accel_cone_reduced t.next_stance (t.primal_vrep.getD 1 [])
      else
        compute_pendular_accel_cone_reduced t.start_stance (t.primal_vrep.getD 0 [])
    let ss_vertices_2d := intersect_polygons ds_vertices_2d ss_vertices_2d
    let ds_cone := expand_reduced_pendular_cone ds_vertices_2d none
    let ss_cone := expand_reduced_pendular_cone ss_vertices_2d none
    if ds_then_ss then [ds_cone, ss_cone] else [ss_cone, ds_cone]

/-- Python's `int()` applied to a rational: truncation toward zero. -/
def pyInt (q : ℚ) : ℤ :=
  if 0 ≤ q.num then q.num / (q.den : ℤ) else -((-q.num) / (q.den : ℤ))

/-- Failure modes of `compute_preview_control` before the solver runs:
`nameErrorD2` models Python's NameError on the never-assigned `D2`/`e2`,
`indexError` models an out-of-range access into `tube.dual_hrep`. -/
inductive PCError where
  | nameErrorD2
  | indexError
deriving DecidableEq

/-- The `switch_step = int(switch_time / dT)` computation of
`compute_preview_control`, with `dT = horizon / nb_mpc_steps`. -/
def pcSwitchStep (switch_time horizon : ℚ) (nb_mpc_steps : ℕ) : ℤ :=
  pyInt (switch_time / (horizon / (nb_mpc_steps : ℚ)))

/-- The conditional fetch `if 0 <= switch_step < nb_mpc_steps - 1:
D2, e2 = tube.dual_hrep[1]` of `compute_preview_control`. -/
def pcFetchD2 {α : Type} (dual_hrep : List α) (switch_step : ℤ)
    (nb_mpc_steps : ℕ) : Except PCError (Option α) :=
  if 0 ≤ switch_step ∧ switch_step < (nb_mpc_steps : ℤ) - 1 then
    match dual_hrep.get? 1 with
    | some p => Except.ok (some p)
    | none => Except.error PCError.indexError
  else Except.ok none

/-- Body of the `for k in range(nb_mpc_steps)` loop of
`compute_preview_control`: step `k` gets the first pair when
`k ≤ switch_step`, else the second pair — which is unbound (NameError)
when it was never fetched. -/
def pcSelectAux {α : Type} (d1 : α) (d2? : Option α) (switch_step : ℤ) :
    List ℕ → Except PCError (List α)
  | [] => Except.ok []
  | k :: ks =>
    match (if (k : ℤ) ≤ switch_step then some d1 else d2?) with
    | none => Except.error PCError.nameErrorD2
    | some d =>
      match pcSelectAux d1 d2? switch_step ks with
      | Except.error e => Except.error e
      | Except.ok ds => Except.ok (d :: ds)

/-- The per-step constraint assignment loop of `compute_preview_control`. -/
def pcSelect {α : Type} (d1 : α) (d2? : Option α) (switch_step : ℤ)
    (nb_mpc_steps : ℕ) : Except PCError (List α) :=
  pcSelectAux d1 d2? switch_step (List.range nb_mpc_steps)

/-- The state transition matrix `A = [[I, dT*I], [0, I]]` of the discrete
double integrator. -/
def mpcMatrixA (dT : ℚ) : List (List ℚ) :=
  [[1, 0, 0, dT, 0, 0], [0, 1, 0, 0, dT, 0], [0, 0, 1, 0, 0, dT],
   [0, 0, 0, 1, 0, 0], [0, 0, 0, 0, 1, 0], [0, 0, 0, 0, 0, 1]]

/-- The control matrix `B = [[dT^2/2*I], [dT*I]]`. -/
def mpcMatrixB (dT : ℚ) : List (List ℚ) :=
  [[dT^2/2, 0, 0], [0, dT^2/2, 0], [0, 0, dT^2/2],
   [dT, 0, 0], [0, dT, 0], [0, 0, dT]]

/-- The data handed to `LinearPredictiveControl` (from `pymanoid/mpc.py`,
outside the sources under review): dynamics matrices, per-step constraints
`D`, `e`, initial and goal states, horizon length and weights.  `α`/`β` are
the opaque types of the dual halfspace matrices and vectors. -/
structure LinearPredictiveControl (α β : Type) where
  A : List (List ℚ)
  B : List (List ℚ)
  C : List (Option Unit)
  D : List α
  e : List β
  x_init : List ℚ
  x_goal : List ℚ
  nb_steps : ℕ
  wxt : ℚ
  wu : ℚ

/-- `COMTubePredictiveControl.compute_preview_control(switch_time, horizon)`.
`solve` abstracts `LinearPredictiveControl.solve` followed by `U.flatten()`;
it returns `none` when the QP raises ValueError (infeasible constraints),
in which case the failure is reported (`true` flag) and the buffer is left
untouched.  Errors raised before the solve propagate as `Except.error`
(caught further up in `on_tick`), also leaving the buffer untouched. -/
def compute_preview_control {α β : Type}
    (solve : LinearPredictiveControl α β → Option (List ℚ))
    (dual_hrep : List (α × β)) (switch_time horizon : ℚ) (nb_mpc_steps : ℕ)
    (cur_com cur_comd target_com target_comd : Vec3)
    (buf : PreviewBuffer) : Except PCError (PreviewBuffer × Bool) :=
  let dT := horizon / (nb_mpc_steps : ℚ)
  let A := mpcMatrixA dT
  let B := mpcMatrixB dT
  let x_init := [cur_com.x, cur_com.y, cur_com.z, cur_comd.x, cur_comd.y, cur_comd.z]
  let x_goal := [target_com.x, target_com.y, target_com.z,
                 target_comd.x, target_comd.y, target_comd.z]
  let switch_step := pcSwitchStep switch_time horizon nb_mpc_steps
  match dual_hrep.get? 0 with
  | none => Except.error PCError.indexError
  | some D1e1 =>
    match pcFetchD2 dual_hrep switch_step nb_mpc_steps with
    | Except.error e => Except.error e
    | Except.ok d2? =>
      match pcSelect D1e1 d2? switch_step nb_mpc_steps with
      | Except.error e => Except.error e
      | Except.ok De =>
        let lpc : LinearPredictiveControl α β :=
          { A := A, B := B, C := List.replicate nb_mpc_steps none,
            D := De.map Prod.fst, e := De.map Prod.snd,
            x_init := x_init, x_goal := x_goal, nb_steps := nb_mpc_steps,
            wxt := 1000, wu := 1 }
        match solve lpc with
        | none => Except.ok (buf, true)
        | some U =>
          let dTs := List.replicate nb_mpc_steps dT
          let buf1 := buf.update_preview U dTs none
          let buf2 :=
            { buf1 with nb_steps := nb_mpc_steps, switch_step := some switch_step }
          Except.ok (buf2, false)

/-! Helper lemmas. -/

theorem charsLead_head_ne {a b : Char} {ps qs cs : List Char}
    (hab : a ≠ b) (h : charsLead (a :: ps) cs = true) :
    charsLead (b :: qs) cs = false := by
  cases cs with
  | nil => simp [charsLead] at h
  | cons c cs' =>
    simp only [charsLead, Bool.and_eq_true, beq_iff_eq] at h
    simp only [charsLead, Bool.and_eq_false_iff]
    exact Or.inl (by simp only [beq_eq_false_iff_ne]; rw [← h.1]; exact Ne.symm hab)

theorem ds_not_ss {l : String} (h : strStartsWith l lblDS = true) :
    strStartsWith l lblSS = false :=
  charsLead_head_ne (by decide) h

theorem ss_not_ds {l : String} (h : strStartsWith l lblSS = true) :
    strStartsWith l lblDS = false :=
  charsLead_head_ne (by decide) h

/-! Preview buffer (C6). -/

theorem get_next_control_of_none (b : PreviewBuffer) (h : b.U_stored = none) :
    b.get_next_control = (default_control b.u_dim, b) := by
  simp [PreviewBuffer.get_next_control, h]

theorem run_nexts_of_none (b : PreviewBuffer) (h : b.U_stored = none) :
    ∀ i, b.run_nexts i = b := by
  intro i
  induction i with
  | zero => rfl
  | succ n ih =>
    simp [PreviewBuffer.run_nexts, ih, get_next_control_of_none b h]

theorem run_nexts_update_cursor (b : PreviewBuffer) (U dT : List ℚ) (k d : ℕ)
    (hd : 0 < d) (hb : b.u_dim = d) (hU : U.length = k * d) :
    ∀ i, (b.update_preview U dT none).run_nexts i =
      { b.update_preview U dT none with cur_index := min i k } := by
  intro i
  induction i with
  | zero =>
    rw [Nat.zero_min]
    rfl
  | succ n ih =>
    rw [PreviewBuffer.run_nexts, ih]
    by_cases h : n < k
    · have hmin : min n k = n := Nat.min_eq_left (Nat.le_of_lt h)
      have hlen : (((U.drop (d * n)).take d)).length = d := by
        rw [List.length_take, List.length_drop, hU]
        have : d * (n + 1) ≤ k * d := by
          rw [Nat.mul_comm k d]
          exact Nat.mul_le_mul_left d h
        rw [Nat.mul_add, Nat.mul_one] at this
        omega
      have hmin' : min (n + 1) k = n + 1 := Nat.min_eq_left h
      simp only [PreviewBuffer.get_next_control, PreviewBuffer.update_preview,
        hmin, hmin', hb]
      rw [if_neg (by rw [hlen]; omega)]
    · have hmin : min n k = k := Nat.min_eq_right (Nat.le_of_not_lt h)
      have hmin' : min (n + 1) k = k := Nat.min_eq_right (by omega)
      have hlen : (((U.drop (d * k)).take d)).length = 0 := by
        rw [List.length_take, List.length_drop, hU, Nat.mul_comm k d]
        omega
      simp only [PreviewBuffer.get_next_control, PreviewBuffer.update_preview,
        hmin, hmin', hb]
      rw [if_pos hlen]

/-- C6: after `update_preview(U, dT)` with `len(dT) = k` and
`len(U) = k * u_dim`, the first `k` calls to `get_next_control` return the
`k` stored `(u_i, dT_i)` pairs in order, every later call returns the
default pair, and after `reset()` every call returns the default pair. -/
theorem preview_buffer_fifo (b : PreviewBuffer) (U dT : List ℚ) (k d : ℕ)
    (hd : 0 < d) (hb : b.u_dim = d) (hU : U.length = k * d)
    (_hk : dT.length = k) :
    (∀ i, i < k →
      ((b.update_preview U dT none).run_nexts i).get_next_control.1 =
        ((U.drop (d * i)).take d, dT.getD i 0))
    ∧ (∀ i, k ≤ i →
      ((b.update_preview U dT none).run_nexts i).get_next_control.1 =
        default_control d)
    ∧ (∀ i, (b.reset.run_nexts i).get_next_control.1 =
        default_control b.u_dim) := by
  refine ⟨fun i hi => ?_, fun i hi => ?_, fun i => ?_⟩
  · rw [run_nexts_update_cursor b U dT k d hd hb hU i]
    have hmin : min i k = i := Nat.min_eq_left (Nat.le_of_lt hi)
    have hlen : (((U.drop (d * i)).take d)).length = d := by
      rw [List.length_take, List.length_drop, hU]
      have : d * (i + 1) ≤ k * d := by
        rw [Nat.mul_comm k d]
        exact Nat.mul_le_mul_left d hi
      rw [Nat.mul_add, Nat.mul_one] at this
      omega
    simp only [PreviewBuffer.get_next_control, PreviewBuffer.update_preview,
      hmin, hb]
    rw [if_neg (by rw [hlen]; omega)]
    simp
  · rw [run_nexts_update_cursor b U dT k d hd hb hU i]
    have hmin : min i k = k := Nat.min_eq_right hi
    have hlen : (((U.drop (d * k)).take d)).length = 0 := by
      rw [List.length_take, List.length_drop, hU, Nat.mul_comm k d]
      omega
    simp only [PreviewBuffer.get_next_control, PreviewBuffer.update_preview,
      hmin, hb]
    rw [if_pos hlen]
  · rw [run_nexts_of_none b.reset rfl i,
      get_next_control_of_none b.reset rfl]
    rfl

/-- Witness for C6 at `u_dim = 1`, `U = [5, 7]`, `dT = [1, 2]`. -/
theorem preview_buffer_fifo_witness :
    (((PreviewBuffer.mk0 1).update_preview [5, 7] [1, 2] none).run_nexts 0).get_next_control.1
      = ([5], 1)
    ∧ (((PreviewBuffer.mk0 1).update_preview [5, 7] [1, 2] none).run_nexts 2).get_next_control.1
      = default_control 1
    ∧ (((PreviewBuffer.mk0 1).reset).run_nexts 0).get_next_control.1
      = default_control 1 := by
  have h := preview_buffer_fifo (PreviewBuffer.mk0 1) [5, 7] [1, 2] 2 1
    (by decide) rfl rfl rfl
  refine ⟨?_, h.2.1 2 (le_refl 2), h.2.2 0⟩
  rw [h.1 0 (by decide)]
  decide

/-! Walking FSM (C4, C7, C8, C10). -/

/-- A concrete contact whose tangential direction is the world x axis. -/
def contactX : Contact := { t := ⟨1, 0, 0⟩, pose := [] }

/-- A concrete double-support stance. -/
def stanceDSR : Stance :=
  { label := "DS-R", duration := 7/10, com_p := ⟨0, 0, 0⟩,
    left_foot := some contactX, right_foot := some contactX }

/-- A concrete FSM state: single double-support stance, non-cyclic, time
exhausted. -/
def fsmHold : FSMState :=
  { cur_stance := stanceDSR, cur_stance_id := 0, cycle := false,
    is_over := false, nb_stances := 1, rem_time := 0,
    stances := [stanceDSR], robot_com := ⟨0, 0, 0⟩ }

/-- A distance function placing the CoM far outside every static-equilibrium
polygon. -/
def distFar : Stance → Vec3 → ℚ := fun _ _ => -1

/-- A distance function placing the CoM inside every static-equilibrium
polygon. -/
def distZero : Stance → Vec3 → ℚ := fun _ _ => 0

/-- A concrete single-support stance. -/
def stanceSSL : Stance :=
  { label := "SS-L", duration := 1, com_p := ⟨0, 0, 1⟩,
    left_foot := some contactX, right_foot := none }

/-- A concrete FSM state on a final single-support stance with time run
out. -/
def fsmFinish : FSMState :=
  { cur_stance := stanceSSL, cur_stance_id := 0, cycle := false,
    is_over := false, nb_stances := 1, rem_time := 0,
    stances := [stanceSSL], robot_com := ⟨0, 0, 0⟩ }

/-- A concrete double-support stance used as successor phase. -/
def stanceDSnext : Stance :=
  { label := "DS-L", duration := 7/10, com_p := ⟨1, 0, 1⟩,
    left_foot := some contactX, right_foot := some contactX }

/-- A concrete single-support stance used as the phase after next. -/
def stanceSSnn : Stance :=
  { label := "SS-L", duration := 1, com_p := ⟨1, 0, 1⟩,
    left_foot := some contactX, right_foot := none }

/-- A concrete FSM state in a rushed single-support phase (less than half
of the phase duration remaining), with the robot's CoM away from the
stance CoM references. -/
def fsmRush : FSMState :=
  { cur_stance := stanceSSL, cur_stance_id := 0, cycle := false,
    is_over := false, nb_stances := 3, rem_time := 2/5,
    stances := [stanceSSL, stanceDSnext, stanceSSnn], robot_com := ⟨5, 5, 5⟩ }

/-- C7: on a tick where the phase time has run out, the current phase is
double-support and the CoM sits at distance ≤ -0.15 from the next stance's
equilibrium region, `on_tick` changes nothing (in particular
`cur_stance_id`, `cur_stance` and `rem_time` are untouched) and, for a
running FSM, emits exactly the hold diagnostic. -/
theorem fsm_ds_guard_hold (dist : Stance → Vec3 → ℚ) (s : FSMState) (dt : ℚ)
    (h1 : s.rem_time ≤ 0)
    (h2 : strStartsWith s.cur_stance.label lblDS = true)
    (h3 : dist s.next_stance s.robot_com ≤ -(15/100)) :
    (s.on_tick dist dt).1 = s
    ∧ (s.is_over = false →
        (s.on_tick dist dt).2 = [FSMEvent.hold_diagnostic]) := by
  cases ho : s.is_over with
  | true =>
    refine ⟨by simp [FSMState.on_tick, ho], fun hfalse => ?_⟩
    simp at hfalse
  | false =>
    have hno : ¬ s.rem_time > 0 := not_lt.mpr h1
    have hguard : ¬ dist s.next_stance s.robot_com > -(15/100) := not_lt.mpr h3
    constructor
    · simp [FSMState.on_tick, ho, hno, h2, hguard]
    · intro _
      simp [FSMState.on_tick, ho, hno, h2, hguard]

/-- Witness for C7 on a concrete held double-support state. -/
theorem fsm_ds_guard_hold_witness :
    (fsmHold.on_tick distFar (3/100)).1 = fsmHold
    ∧ (fsmHold.on_tick distFar (3/100)).2 = [FSMEvent.hold_diagnostic] := by
  have h := fsm_ds_guard_hold distFar fsmHold (3/100)
    (by decide) (by decide) (by decide)
  exact ⟨h.1, h.2 rfl⟩

/-- C8 (amended): the FSM never advances while `rem_time > 0`; a finished
FSM is a fixpoint of `on_tick` (so `is_over` stays true with the index
fixed on every subsequent tick); and when the final phase of a non-cyclic
FSM has run out of time and the tick is not held by the double-support
feasibility guard, `is_over` becomes true with the index unchanged. -/
theorem fsm_phase_advance_policy (dist : Stance → Vec3 → ℚ) (s : FSMState)
    (dt : ℚ) :
    (0 < s.rem_time → (s.on_tick dist dt).1.cur_stance_id = s.cur_stance_id)
    ∧ (s.is_over = true → ∀ dts : List ℚ, s.run_ticks dist dts = s)
    ∧ (s.rem_time ≤ 0 → s.cur_stance_id = s.nb_stances - 1 →
        s.cycle = false →
        ¬(strStartsWith s.cur_stance.label lblDS = true ∧
          dist s.next_stance s.robot_com ≤ -(15/100)) →
        (s.on_tick dist dt).1.is_over = true ∧
        (s.on_tick dist dt).1.cur_stance_id = s.cur_stance_id) := by
  refine ⟨fun hpos => ?_, fun ho dts => ?_, fun h1 h2 h3 h4 => ?_⟩
  · cases ho : s.is_over with
    | true => simp [FSMState.on_tick, ho]
    | false => simp [FSMState.on_tick, ho, hpos]
  · have hfix : s.on_tick dist dt = (s, []) := by simp [FSMState.on_tick, ho]
    clear hfix
    induction dts with
    | nil => rfl
    | cons dt' rest ih =>
      have hfix' : (s.on_tick dist dt').1 = s := by
        simp [FSMState.on_tick, ho]
      rw [FSMState.run_ticks, hfix', ih]
  · cases ho : s.is_over with
    | true => constructor <;> simp [FSMState.on_tick, ho]
    | false =>
      have hno : ¬ s.rem_time > 0 := not_lt.mpr h1
      simp [FSMState.on_tick, ho, hno, h2, h3, h4]

/-- Witness for C8 on a concrete single-support final stance with the time
expired. -/
theorem fsm_phase_advance_policy_witness :
    (fsmFinish.on_tick distZero (3/100)).1.is_over = true
    ∧ (fsmFinish.on_tick distZero (3/100)).1.cur_stance_id =
        fsmFinish.cur_stance_id :=
  (fsm_phase_advance_policy distZero fsmFinish (3/100)).2.2
    (by decide) (by decide) rfl (by decide)

/-- Counterexample to C8 as stated: a non-cyclic FSM on its final stance
with the time run out, where the double-support feasibility guard fails;
`on_tick` holds instead of marking the FSM terminal, so `is_over` does not
become true when the final stance's time runs out. -/
theorem fsm_terminal_guard_counterexample :
    fsmHold.rem_time ≤ 0
    ∧ fsmHold.cur_stance_id = fsmHold.nb_stances - 1
    ∧ fsmHold.cycle = false
    ∧ fsmHold.is_over = false
    ∧ (fsmHold.on_tick distFar (3/100)).1 = fsmHold
    ∧ (fsmHold.on_tick distFar (3/100)).1.is_over = false := by
  decide

/-- C10: in a non-cyclic FSM sitting on the last stance index, `next_stance`
returns the current stance itself. -/
theorem next_stance_terminal (s : FSMState) (hc : s.cycle = false)
    (hid : s.cur_stance_id = s.nb_stances - 1)
    (hcur : s.cur_stance = s.stances.getD s.cur_stance_id default) :
    s.next_stance = s.cur_stance := by
  have hge : s.cur_stance_id + 1 ≥ s.nb_stances := by omega
  simp only [FSMState.next_stance]
  rw [if_pos hge, if_neg (show ¬(s.cycle = true) by simp [hc])]
  exact hcur.symm

/-- Witness for C10 on a concrete one-stance non-cyclic FSM. -/
theorem next_stance_terminal_witness : fsmHold.next_stance = fsmHold.cur_stance :=
  next_stance_terminal fsmHold rfl (by decide) (by decide)

/-- C4 (amended): the exact three-way preview-target policy, with the
rushed single-support velocity computed from the current stance's CoM
reference (not from the current CoM). -/
theorem get_preview_targets_policy (s : FSMState) :
    (strStartsWith s.cur_stance.label lblSS = true →
      s.rem_time < (1/2) * s.cur_stance.duration →
      s.get_preview_targets =
        (s.rem_time,
         s.rem_time + s.next_stance.duration +
           (1/2) * s.next_next_stance.duration,
         s.next_stance.com_p,
         (s.next_stance.com_p - s.cur_stance.com_p) /
           (s.rem_time + s.next_stance.duration +
             (1/2) * s.next_next_stance.duration)))
    ∧ (strStartsWith s.cur_stance.label lblDS = true →
      s.get_preview_targets =
        (s.rem_time, s.rem_time + (1/2) * s.next_stance.duration,
         s.cur_stance.com_p, (2/5 : ℚ) • s.stance_foot.t))
    ∧ (strStartsWith s.cur_stance.label lblSS = true →
      ¬(s.rem_time < (1/2) * s.cur_stance.duration) →
      s.get_preview_targets =
        (s.rem_time, s.rem_time, s.cur_stance.com_p,
         (2/5 : ℚ) • s.stance_foot.t)) := by
  refine ⟨fun hss hrem => ?_, fun hds => ?_, fun hss hrem => ?_⟩
  · simp only [FSMState.get_preview_targets]
    rw [if_pos ⟨hss, hrem⟩]
  · have hnss := ds_not_ss hds
    simp only [FSMState.get_preview_targets]
    rw [if_neg (fun hcond => by simp [hnss] at hcond), if_pos hds]
  · have hnds := ss_not_ds hss
    simp only [FSMState.get_preview_targets]
    rw [if_neg (fun hcond => hrem hcond.2),
      if_neg (show ¬(strStartsWith s.cur_stance.label lblDS = true) by simp [hnds])]

/-- Witness for C4 on the concrete double-support state. -/
theorem get_preview_targets_policy_witness :
    fsmHold.get_preview_targets = (0, 7/20, ⟨0, 0, 0⟩, ⟨2/5, 0, 0⟩) := by
  rw [(get_preview_targets_policy fsmHold).2.1 (by decide)]
  decide

/-- Counterexample to C4 as stated: in a rushed single-support phase the
returned velocity is not `(target_com - current_com)/horizon` for the
FSM's current CoM. -/
theorem get_preview_targets_counterexample :
    strStartsWith fsmRush.cur_stance.label lblSS = true
    ∧ fsmRush.rem_time < (1/2) * fsmRush.cur_stance.duration
    ∧ fsmRush.get_preview_targets.2.2.2 ≠
        (fsmRush.get_preview_targets.2.2.1 - fsmRush.robot_com) /
          fsmRush.get_preview_targets.2.1 := by
  decide

/-! COM tube (C1, C2, C3). -/

/-- C3 (amended): when the start stance is single-support and its CoM
reference is within `1e-3` of `target_com` componentwise,
`compute_primal_vrep` produces exactly one sub-phase, the full 8-vertex
swept volume, with no singleton sub-phase. -/
theorem primal_vrep_single_phase (sqrt : ℚ → ℚ) (t : COMTube)
    (hss : strStartsWith t.start_stance.label lblSS = true)
    (hx : |(t.start_stance.com_p - t.target_com).x| < 1/1000)
    (hy : |(t.start_stance.com_p - t.target_com).y| < 1/1000)
    (hz : |(t.start_stance.com_p - t.target_com).z| < 1/1000) :
    (t.compute_primal_vrep sqrt).primal_vrep =
      [(t.compute_primal_vrep sqrt).full_vrep]
    ∧ (t.compute_primal_vrep sqrt).full_vrep.length = 8 := by
  constructor
  · simp only [COMTube.compute_primal_vrep]
    rw [if_pos hss, if_pos ⟨hx, hy, hz⟩]
  · simp [COMTube.compute_primal_vrep]

/-- A single-support stance whose CoM reference coincides with the tube
target. -/
def stanceSSstay : Stance :=
  { label := "SS-L", duration := 1, com_p := ⟨0, 0, 1⟩,
    left_foot := some contactX, right_foot := none }

/-- A tube that stays at the stance CoM reference (start ≈ target ≈
stance CoM). -/
def tubeStay : COMTube :=
  COMTube.mk0 ⟨0, 0, 21/20⟩ ⟨0, 0, 1⟩ stanceSSstay stanceDSnext (1/100) (1/100)

/-- Witness for C3 on a concrete staying tube. -/
theorem primal_vrep_single_phase_witness :
    (tubeStay.compute_primal_vrep (fun q => q)).primal_vrep =
      [(tubeStay.compute_primal_vrep (fun q => q)).full_vrep]
    ∧ (tubeStay.compute_primal_vrep (fun q => q)).full_vrep.length = 8 :=
  primal_vrep_single_phase (fun q => q) tubeStay (by decide) (by decide)
    (by decide) (by decide)

/-- An exact square-root table for the inputs arising in
`tubeNear.compute_primal_vrep`. -/
def sqrtExact : ℚ → ℚ :=
  fun q => if q = 1/4000000 then 1/2000 else if q = 1 then 1 else 0

/-- A single-support stance whose CoM reference is far from the tube
target. -/
def stanceSSfar : Stance :=
  { label := "SS-L", duration := 1, com_p := ⟨10, 0, 0⟩,
    left_foot := some contactX, right_foot := none }

/-- A tube whose start CoM is within `1e-3` of its target but whose start
stance CoM reference is far away. -/
def tubeNear : COMTube :=
  COMTube.mk0 ⟨0, 0, 0⟩ ⟨1/2000, 0, 0⟩ stanceSSfar stanceDSnext (1/100) (1/100)

/-- Counterexample to C3 as stated: `start_com` equals `target_com` within
`1e-3` componentwise and the start stance is single-support, yet the code
produces two sub-phases with a leading singleton, because the code compares
the start stance's CoM reference (not `start_com`) against `target_com`. -/
theorem primal_vrep_counterexample :
    strStartsWith tubeNear.start_stance.label lblSS = true
    ∧ |(tubeNear.start_com - tubeNear.target_com).x| < 1/1000
    ∧ |(tubeNear.start_com - tubeNear.target_com).y| < 1/1000
    ∧ |(tubeNear.start_com - tubeNear.target_com).z| < 1/1000
    ∧ (tubeNear.compute_primal_vrep sqrtExact).primal_vrep.length = 2
    ∧ (tubeNear.compute_primal_vrep sqrtExact).primal_vrep.getD 0 [] =
        [tubeNear.start_com] := by
  decide

theorem compute_dual_vrep_eq
    (pac : Stance → List Vec3 → List Vec3)
    (pacr : Stance → List Vec3 → List (ℚ × ℚ))
    (ip : List (ℚ × ℚ) → List (ℚ × ℚ) → List (ℚ × ℚ))
    (t : COMTube) (hne : ¬ t.primal_vrep.length = 1) :
    t.compute_dual_vrep pac pacr ip =
      if (t.primal_vrep.getD 0 []).length > 1 then
        [expand_reduced_pendular_cone (pacr t.start_stance t.full_vrep) none,
         expand_reduced_pendular_cone
           (ip (pacr t.start_stance t.full_vrep)
               (pacr t.next_stance (t.primal_vrep.getD 1 []))) none]
      else
        [expand_reduced_pendular_cone
           (ip (pacr t.next_stance t.full_vrep)
               (pacr t.start_stance (t.primal_vrep.getD 0 []))) none,
         expand_reduced_pendular_cone (pacr t.next_stance t.full_vrep) none] := by
  by_cases hds : (t.primal_vrep.getD 0 []).length > 1
  all_goals
    simp only [COMTube.compute_dual_vrep]
    rw [if_neg hne]
    simp only [List.getD_eq_getElem?_getD] at hds
    simp [hds]

/-- C1: for a tube with two primal sub-phases, the 2D vertex set used to
build the single-support sub-phase's dual cone is the polygon intersection
of the double-support stance's and the single-support stance's reduced
pendular cones, in both the DS-then-SS and the SS-then-DS orderings, while
the double-support cone is built from its own reduced cone. -/
theorem dual_cone_intersection
    (pac : Stance → List Vec3 → List Vec3)
    (pacr : Stance → List Vec3 → List (ℚ × ℚ))
    (ip : List (ℚ × ℚ) → List (ℚ × ℚ) → List (ℚ × ℚ))
    (t : COMTube) (h2 : t.primal_vrep.length = 2) :
    ((t.primal_vrep.getD 0 []).length > 1 →
      t.compute_dual_vrep pac pacr ip =
        [expand_reduced_pendular_cone (pacr t.start_stance t.full_vrep) none,
         expand_reduced_pendular_cone
           (ip (pacr t.start_stance t.full_vrep)
               (pacr t.next_stance (t.primal_vrep.getD 1 []))) none])
    ∧ (¬((t.primal_vrep.getD 0 []).length > 1) →
      t.compute_dual_vrep pac pacr ip =
        [expand_reduced_pendular_cone
           (ip (pacr t.next_stance t.full_vrep)
               (pacr t.start_stance (t.primal_vrep.getD 0 []))) none,
         expand_reduced_pendular_cone (pacr t.next_stance t.full_vrep) none]) := by
  have hne : ¬ t.primal_vrep.length = 1 := by omega
  constructor
  · intro hds
    rw [compute_dual_vrep_eq pac pacr ip t hne, if_pos hds]
  · intro hds
    rw [compute_dual_vrep_eq pac pacr ip t hne, if_neg hds]

/-- A pendular cone returning no 3D vertices (never used on the two-phase
path). -/
def pacW : Stance → List Vec3 → List Vec3 := fun _ _ => []

/-- A reduced pendular cone returning a fixed 2D vertex. -/
def pacrW : Stance → List Vec3 → List (ℚ × ℚ) := fun _ _ => [(1, 2)]

/-- A polygon intersection instantiated as concatenation (adequate here
since only the call structure matters). -/
def ipW : List (ℚ × ℚ) → List (ℚ × ℚ) → List (ℚ × ℚ) := fun a b => a ++ b

/-- A tube with two primal sub-phases in the SS-then-DS ordering. -/
def tubeTwoPhase : COMTube :=
  { start_com := ⟨0, 0, 0⟩, target_com := ⟨1, 1, 1⟩,
    start_stance := stanceSSL, next_stance := stanceDSnext,
    radius := 1/100, margin := 1/100,
    full_vrep := [⟨0, 0, 0⟩, ⟨1, 1, 1⟩],
    primal_vrep := [[⟨0, 0, 0⟩], [⟨0, 0, 0⟩, ⟨1, 1, 1⟩]] }

/-- Witness for C1 on a concrete two-phase tube. -/
theorem dual_cone_intersection_witness :
    tubeTwoPhase.compute_dual_vrep pacW pacrW ipW =
      [expand_reduced_pendular_cone
         (ipW (pacrW tubeTwoPhase.next_stance tubeTwoPhase.full_vrep)
              (pacrW tubeTwoPhase.start_stance
                (tubeTwoPhase.primal_vrep.getD 0 []))) none,
       expand_reduced_pendular_cone
         (pacrW tubeTwoPhase.next_stance tubeTwoPhase.full_vrep) none] :=
  (dual_cone_intersection pacW pacrW ipW tubeTwoPhase (by decide)).2 (by decide)

theorem expand_cone_vertical (hull : List (ℚ × ℚ)) (v : Vec3)
    (hv : v ∈ expand_reduced_pendular_cone hull none) :
    v.z = gravity.z ∨ v.z = -gravity.z := by
  simp only [expand_reduced_pendular_cone, List.singleton_append,
    List.mem_cons, List.mem_map] at hv
  rcases hv with h | ⟨p, _, h⟩
  · left
    rw [h]
  · right
    rw [← h]

/-- C2 (amended): for a tube with two primal sub-phases, each dual cone is
an expansion of a reduced 2D hull obtained by prepending the gravity vector
(vertical component `-g`) to the hull lifted to `zdd = g`; hence every
vertex of each 3D dual cone has vertical component `-g` or `g`. -/
theorem dual_cone_vertical_extremes
    (pac : Stance → List Vec3 → List Vec3)
    (pacr : Stance → List Vec3 → List (ℚ × ℚ))
    (ip : List (ℚ × ℚ) → List (ℚ × ℚ) → List (ℚ × ℚ))
    (t : COMTube) (h2 : t.primal_vrep.length = 2) :
    ∀ cone ∈ t.compute_dual_vrep pac pacr ip,
      (∃ hull, cone = expand_reduced_pendular_cone hull none)
      ∧ ∀ v ∈ cone, v.z = gravity.z ∨ v.z = -gravity.z := by
  intro cone hcone
  rw [compute_dual_vrep_eq pac pacr ip t (by omega)] at hcone
  by_cases hds : (t.primal_vrep.getD 0 []).length > 1
  · rw [if_pos hds] at hcone
    simp only [List.mem_cons, List.not_mem_nil, or_false] at hcone
    rcases hcone with h | h <;>
      exact h ▸ ⟨⟨_, rfl⟩, fun v hv => expand_cone_vertical _ v hv⟩
  · rw [if_neg hds] at hcone
    simp only [List.mem_cons, List.not_mem_nil, or_false] at hcone
    rcases hcone with h | h <;>
      exact h ▸ ⟨⟨_, rfl⟩, fun v hv => expand_cone_vertical _ v hv⟩

/-- Witness for C2: the vertex of the two-phase tube's first dual cone at
`zdd = g`. -/
theorem dual_cone_vertical_extremes_witness :
    (Vec3.mk (981/50) (981/25) (981/100)).z = gravity.z ∨
    (Vec3.mk (981/50) (981/25) (981/100)).z = -gravity.z :=
  ((dual_cone_vertical_extremes pacW pacrW ipW tubeTwoPhase (by decide))
    (expand_reduced_pendular_cone
      (ipW (pacrW tubeTwoPhase.next_stance tubeTwoPhase.full_vrep)
           (pacrW tubeTwoPhase.start_stance
             (tubeTwoPhase.primal_vrep.getD 0 []))) none)
    (by decide)).2 (Vec3.mk (981/50) (981/25) (981/100)) (by decide)

/-- Counterexample to C2 as stated: the gravity vector is a vertex of a
two-phase tube's dual cone, and its vertical component is `-9.81`, neither
`0` nor the positive gravity constant `g`. -/
theorem dual_cone_zdd_counterexample :
    tubeTwoPhase.primal_vrep.length = 2
    ∧ gravity ∈ (tubeTwoPhase.compute_dual_vrep pacW pacrW ipW).getD 0 []
    ∧ ¬(gravity.z = 0 ∨ gravity.z = -gravity.z) := by
  decide

/-! Predictive control (C5, C9). -/

theorem pyInt_nonneg (q : ℚ) (h : 0 ≤ q) : pyInt q = ⌊q⌋ := by
  unfold pyInt
  rw [if_pos (Rat.num_nonneg.mpr h)]
  exact Rat.floor_def.symm

theorem pcSelectAux_ok {α : Type} (d1 : α) (d2? : Option α) (ss : ℤ)
    (g : ℕ → α) (l : List ℕ)
    (h : ∀ k ∈ l, (if (k : ℤ) ≤ ss then some d1 else d2?) = some (g k)) :
    pcSelectAux d1 d2? ss l = Except.ok (l.map g) := by
  induction l with
  | nil => rfl
  | cons k ks ih =>
    have hk := h k (List.mem_cons_self k ks)
    have hks := ih (fun a ha => h a (List.mem_cons_of_mem k ha))
    simp only [pcSelectAux, hk, hks, List.map_cons]

/-- C9 (amended): with `0 ≤ switch_time < horizon`, `switch_step` lies in
`[0, N)`; the selection loop assigns the first pair to steps
`k ≤ switch_step` and the second to the rest; and when
`switch_step ≥ N - 1` the second pair is neither fetched nor used — all
`N` steps get the first pair even when `dual_hrep` has a single entry. -/
theorem switch_step_policy {α : Type} (switch_time horizon : ℚ) (N : ℕ)
    (hN : 0 < N) :
    ((0 ≤ switch_time ∧ switch_time < horizon) →
      0 ≤ pcSwitchStep switch_time horizon N ∧
      pcSwitchStep switch_time horizon N < (N : ℤ))
    ∧ (∀ (d1 d2 : α) (ss : ℤ),
        pcSelect d1 (some d2) ss N =
          Except.ok ((List.range N).map
            (fun (k : ℕ) => if (k : ℤ) ≤ ss then d1 else d2)))
    ∧ (∀ (d1 : α) (ss : ℤ), (N : ℤ) - 1 ≤ ss →
        pcFetchD2 [d1] ss N = Except.ok none ∧
        pcSelect d1 none ss N = Except.ok (List.replicate N d1)) := by
  refine ⟨fun h => ?_, fun d1 d2 ss => ?_, fun d1 ss hss => ?_⟩
  · obtain ⟨h0, h1⟩ := h
    have hhor : 0 < horizon := lt_of_le_of_lt h0 h1
    have hNQ : (0 : ℚ) < (N : ℚ) := by exact_mod_cast hN
    have hdT : 0 < horizon / (N : ℚ) := div_pos hhor hNQ
    have hq : 0 ≤ switch_time / (horizon / (N : ℚ)) :=
      div_nonneg h0 (le_of_lt hdT)
    rw [pcSwitchStep, pyInt_nonneg _ hq]
    refine ⟨Int.floor_nonneg.mpr hq, ?_⟩
    rw [Int.floor_lt]
    push_cast
    rw [div_lt_iff₀ hdT, mul_div_assoc', mul_div_cancel_left₀ _ (ne_of_gt hNQ)]
    exact h1
  · exact pcSelectAux_ok d1 (some d2) ss
      (fun (k : ℕ) => if (k : ℤ) ≤ ss then d1 else d2) (List.range N)
      (fun k _ => by by_cases hk : (k : ℤ) ≤ ss <;> simp [hk])
  · refine ⟨?_, ?_⟩
    · rw [pcFetchD2, if_neg]
      rintro ⟨-, hlt⟩
      omega
    · have hmap := pcSelectAux_ok d1 none ss (fun _ => d1) (List.range N)
        (fun k hk => by
          have hkN : k < N := List.mem_range.mp hk
          have : (k : ℤ) ≤ ss := by
            have : (k : ℤ) < (N : ℤ) := by exact_mod_cast hkN
            omega
          simp [this])
      rw [pcSelect, hmap, List.map_const', List.length_range]

/-- Witness for C9 at `switch_time = 0`, `horizon = 1`, `N = 2`. -/
theorem switch_step_policy_witness :
    (0 : ℤ) ≤ pcSwitchStep 0 1 2 ∧ pcSwitchStep 0 1 2 < ((2 : ℕ) : ℤ) :=
  (switch_step_policy (α := ℕ) 0 1 2 (by decide)).1 ⟨le_refl 0, by decide⟩

/-- Counterexample to C9 as stated: with a negative `switch_time` (phase
transition already past), `switch_step` is negative — outside `[0, N-1)` —
and the selection loop references the never-fetched second pair instead of
using the single constraint pair for all steps, so the computation aborts
with a NameError. -/
theorem switch_step_counterexample :
    pcSwitchStep (-1) 1 2 = -2
    ∧ ¬((0 : ℤ) ≤ pcSwitchStep (-1) 1 2)
    ∧ compute_preview_control (α := ℕ) (β := ℕ) (fun _ => none) [(1, 2)]
        (-1) 1 2 ⟨0, 0, 0⟩ ⟨0, 0, 0⟩ ⟨0, 0, 0⟩ ⟨0, 0, 0⟩ (PreviewBuffer.mk0 3) =
        Except.error PCError.nameErrorD2 :=
  ⟨by decide, by decide, by rfl⟩

/-- C5: when the constraint build succeeds and the QP solver fails
(ValueError on an infeasible constraint set), `compute_preview_control`
reports the failure and returns the preview buffer exactly as it was —
`U`, `dT`, cursor, `nb_steps` and `switch_step` all retained. -/
theorem qp_failure_keeps_buffer {α β : Type}
    (solve : LinearPredictiveControl α β → Option (List ℚ))
    (dual_hrep : List (α × β)) (switch_time horizon : ℚ) (N : ℕ)
    (cur_com cur_comd target_com target_comd : Vec3) (buf : PreviewBuffer)
    (p1 : α × β) (d2? : Option (α × β)) (De : List (α × β))
    (h0 : dual_hrep.get? 0 = some p1)
    (hD2 : pcFetchD2 dual_hrep (pcSwitchStep switch_time horizon N) N =
      Except.ok d2?)
    (hSel : pcSelect p1 d2? (pcSwitchStep switch_time horizon N) N =
      Except.ok De)
    (hsolve : ∀ p, solve p = none) :
    compute_preview_control solve dual_hrep switch_time horizon N
      cur_com cur_comd target_com target_comd buf = Except.ok (buf, true) := by
  simp only [compute_preview_control, h0, hD2, hSel, hsolve]

/-- Witness for C5 with a two-entry `dual_hrep` and an always-failing
solver. -/
theorem qp_failure_keeps_buffer_witness :
    compute_preview_control (α := ℕ) (β := ℕ) (fun _ => none) [(1, 2), (3, 4)]
      0 1 2 ⟨0, 0, 0⟩ ⟨0, 0, 0⟩ ⟨0, 0, 0⟩ ⟨0, 0, 0⟩ (PreviewBuffer.mk0 3) =
      Except.ok (PreviewBuffer.mk0 3, true) :=
  qp_failure_keeps_buffer (fun _ => none) [(1, 2), (3, 4)] 0 1 2
    ⟨0, 0, 0⟩ ⟨0, 0, 0⟩ ⟨0, 0, 0⟩ ⟨0, 0, 0⟩ (PreviewBuffer.mk0 3)
    (1, 2) (some (3, 4)) [(1, 2), (3, 4)] rfl (by rfl) (by rfl) (fun _ => rfl)

end MCW
